import Mathlib

/-!
Verification of the cx-bot entitlement ledger and look-transfer pipeline
(`src/bot.py`) against its design specification.

The Python source is shallowly embedded: the JSON user store becomes an
association list from user id to a record of optional fields (a field that is
absent, or whose stored value is of the wrong JSON type, is `none` — the
source coerces both to the same defaults via `isinstance` checks), machine
time is passed explicitly as an integer `now` parameter, the current UTC day
key (`_today_key()`) is passed explicitly as a `today : String` parameter,
and floating-point arithmetic in the color-grading parameter computation is
modelled over `Rat`.

JSON store keys are `str(user_id)` in the source; since Python's `str` is
injective on integers, records are keyed here directly by the integer id.
-/

namespace CxBot

/-- One persisted user record.  Every field is optional: in the JSON store a
field may be absent or hold a junk value, and the source re-validates each
field with `isinstance` on every read, treating junk the same as absent. -/
structure UserRecord where
  premium_until : Option Int
  credits : Option Int
  effects_free_day : Option String
  effects_free_used : Option Int
  success_count : Option Int
  referred_by : Option String
  ref_count : Option Int
deriving Repr, DecidableEq

/-- The record the source uses when a user has no entry (`rec = {}`). -/
def UserRecord.empty : UserRecord :=
  ⟨none, none, none, none, none, none, none⟩

/-- The user store: the JSON object at `user_store.json`, as an association
list from user id to record. -/
abbrev Store : Type := List (Int × UserRecord)

/-- Dictionary lookup `store.get(str(user_id))`. -/
def Store.get : Store → Int → Option UserRecord
  | [], _ => none
  | (k, r) :: rest, key => if k = key then some r else Store.get rest key

/-- Dictionary assignment `store[str(user_id)] = rec`. -/
def Store.set : Store → Int → UserRecord → Store
  | [], key, r => [(key, r)]
  | (k, r0) :: rest, key, r =>
    if k = key then (k, r) :: rest else (k, r0) :: Store.set rest key r

/-- `rec = store.get(key); if not isinstance(rec, dict): rec = {}`. -/
def getRec (store : Store) (user_id : Int) : UserRecord :=
  (Store.get store user_id).getD UserRecord.empty

/-- `_is_premium_now`: `isinstance(until, (int, float)) and int(until) > int(time.time())`. -/
def _is_premium_now (now : Int) (r : UserRecord) : Bool :=
  match r.premium_until with
  | some u => decide (now < u)
  | none => false

/-- `_get_credits`: `int(c) if isinstance(c, (int, float)) and int(c) > 0 else 0`. -/
def _get_credits (r : UserRecord) : Int :=
  match r.credits with
  | some c => if 0 < c then c else 0
  | none => 0

/-- `FREE_EFFECTS_PER_DAY = 2`. -/
def FREE_EFFECTS_PER_DAY : Int := 2

/-- `PREMIUM_DURATION_SECONDS = 30 * 24 * 60 * 60`. -/
def PREMIUM_DURATION_SECONDS : Int := 30 * 24 * 60 * 60

/-- `_grant_premium(user_id, seconds)` at wall-clock time `now`:
no-op for `seconds <= 0`; otherwise `base = premium_until or 0`,
`base = now` when `base < now`, and `premium_until = base + seconds`. -/
def _grant_premium (now user_id seconds : Int) (store : Store) : Store :=
  if seconds ≤ 0 then store
  else
    let r := getRec store user_id
    let base0 := r.premium_until.getD 0
    let base := if base0 < now then now else base0
    Store.set store user_id { r with premium_until := some (base + seconds) }

/-- `_add_credits(user_id, amount)`: no-op for `amount <= 0`; otherwise
`credits = max(0, cur + amount)` where `cur` is the raw stored value
(defaulting to 0 when absent or non-numeric). -/
def _add_credits (user_id amount : Int) (store : Store) : Store :=
  if amount ≤ 0 then store
  else
    let r := getRec store user_id
    let cur := r.credits.getD 0
    Store.set store user_id { r with credits := some (max 0 (cur + amount)) }

/-- `_plan_effect_entitlement(user_id)` evaluated at time `now`, with
`today = _today_key()`.  Returns `"premium"`, `"free"`, `"credit"` or
`None`; reads the store but performs no save. -/
def _plan_effect_entitlement (now : Int) (today : String) (user_id : Int)
    (store : Store) : Option String :=
  let r := getRec store user_id
  if _is_premium_now now r then some "premium"
  else
    let used_count : Int :=
      if r.effects_free_day = some today then r.effects_free_used.getD 0 else 0
    if used_count < FREE_EFFECTS_PER_DAY then some "free"
    else if 0 < _get_credits r then some "credit"
    else none

/-- `_finalize_effect_entitlement(user_id, kind)` with `today = _today_key()`:
returns early unless `kind in ("premium", "free", "credit")`; `premium` is a
no-op; `free` resets the day key and counter when the stored day differs from
today, then increments the counter; `credit` decrements credits floored at 0. -/
def _finalize_effect_entitlement (today : String) (user_id : Int)
    (kind : Option String) (store : Store) : Store :=
  if kind = some "premium" ∨ kind = some "free" ∨ kind = some "credit" then
    if kind = some "premium" then store
    else
      let r := getRec store user_id
      let used_count : Int :=
        if r.effects_free_day = some today then r.effects_free_used.getD 0 else 0
      if kind = some "free" then
        Store.set store user_id
          { r with effects_free_day := some today,
                   effects_free_used := some (used_count + 1) }
      else
        Store.set store user_id { r with credits := some (max 0 (_get_credits r - 1)) }
  else store

/-- Python truthiness of the stored `referred_by` value (`None` and the empty
string are falsy). -/
def truthyStr : Option String → Bool
  | some s => s != ""
  | none => false

/-- `_apply_referral(new_user_id, ref_user_id)`: the guard cascade rejects
non-positive or equal ids and an already-set `referred_by`; on success it
writes `referred_by = str(ref_user_id)` on the new user, bumps the referrer's
`ref_count`, grants the referrer 5 credits and the new user 2 credits, and
returns `True`.  Result: `(returned bool, store after)`. -/
def _apply_referral (new_user_id ref_user_id : Int) (store : Store) :
    Bool × Store :=
  if new_user_id ≤ 0 ∨ ref_user_id ≤ 0 then (false, store)
  else if new_user_id = ref_user_id then (false, store)
  else
    let newRec := getRec store new_user_id
    if truthyStr newRec.referred_by then (false, store)
    else
      let newRec1 := { newRec with referred_by := some (toString ref_user_id) }
      let store1 := Store.set store new_user_id newRec1
      let refRec := getRec store1 ref_user_id
      let refRec1 := { refRec with ref_count := some (refRec.ref_count.getD 0 + 1) }
      let refRec2 := { refRec1 with credits := some (_get_credits refRec1 + 5) }
      let store2 := Store.set store1 ref_user_id refRec2
      let newRec2 := { newRec1 with credits := some (_get_credits newRec1 + 2) }
      (true, Store.set store2 new_user_id newRec2)

/-- The possible outcomes of reading the persisted store file in
`_load_user_store_sync`: the file is missing (`not USER_STORE_PATH.exists()`),
its content is the empty string (`json.loads(raw) if raw else {}` takes the
`{}` arm), `json.loads` raises (caught by the bare `except`), the parse
succeeds but yields a non-object (`isinstance(data, dict)` fails), or it
yields an object, which is the store itself. -/
inductive ReadOutcome where
  | missing
  | emptyContent
  | malformed
  | nonObject
  | object (s : Store)
deriving DecidableEq

/-- `_load_user_store_sync()`, as a function of what reading and parsing the
persisted file yields. -/
def _load_user_store_sync : ReadOutcome → Store
  | .missing => []
  | .emptyContent => []
  | .malformed => []
  | .nonObject => []
  | .object s => s

/-- Signal statistics returned by `_extract_signalstats`: mean luma, luma
band width and mean chroma band width (the latter two floored at 1 by the
extractor, but arbitrary here since `_compute_eq_params` accepts any stats). -/
structure SignalStats where
  yavg : Rat
  yrange : Rat
  crange : Rat
deriving Repr, DecidableEq

/-- `_clamp(val, lo, hi)`. -/
def _clamp (val lo hi : Rat) : Rat :=
  if val < lo then lo
  else if hi < val then hi
  else val

/-- `_compute_eq_params(src, ref) -> (brightness, contrast, saturation)`,
over exact rationals in place of IEEE doubles. -/
def _compute_eq_params (src ref : SignalStats) : Rat × Rat × Rat :=
  let b := _clamp ((ref.yavg - src.yavg) / 255) (-(35 / 100)) (35 / 100)
  let c := _clamp (ref.yrange / max 1 src.yrange) (7 / 10) (16 / 10)
  let s := _clamp (ref.crange / max 1 src.crange) (6 / 10) (18 / 10)
  (b, c, s)

/-- The `eq=...` video-filter string built in `_apply_eq_filter`; `bs`, `cs`
and `ss` stand for the `f"\x7bx:.4f\x7d"` renderings of the three numeric
parameters. -/
def _eq_vf (bs cs ss : String) : String :=
  "eq=brightness=" ++ bs ++ ":contrast=" ++ cs ++ ":saturation=" ++ ss

/-- The argument list `_apply_eq_filter` passes to `subprocess.run`. -/
def _apply_eq_cmd (exe in_path out_path bs cs ss : String) : List String :=
  [exe, "-hide_banner", "-y", "-i", in_path,
   "-map", "0:v:0", "-map", "0:a?",
   "-vf", _eq_vf bs cs ss,
   "-c:v", "libx264", "-preset", "veryfast", "-crf", "23",
   "-c:a", "aac", "-b:a", "128k",
   "-movflags", "+faststart", out_path]

/-- `_apply_eq_filter` runs the command with `check=True`: a non-zero exit of
the transcoder raises `CalledProcessError`, i.e. the whole operation fails.
`runProc` gives the exit status of executing an argument list. -/
def _apply_eq_filter (runProc : List String → Int)
    (exe in_path out_path bs cs ss : String) : Except Unit Unit :=
  if runProc (_apply_eq_cmd exe in_path out_path bs cs ss) = 0 then
    Except.ok ()
  else
    Except.error ()

/-- Modelled from the spec's words, for comparison with `_apply_eq_cmd`:
"passing audio through unmodified when present" means the transcoder is
instructed to stream-copy the audio (codec argument `copy`, as in
`-c:a copy`) rather than re-encode it. -/
def specAudioPassthrough (cmd : List String) : Prop :=
  "-c:a" ∈ cmd ∧ "copy" ∈ cmd

/-- The mutable closure state of `_make_progress_hook`:
`last = {"t": 0.0, "text": ""}`. -/
structure HookState where
  t : Rat
  text : String
deriving Repr, DecidableEq

/-- `last = {"t": 0.0, "text": ""}`. -/
def hookInit : HookState := ⟨0, ""⟩

/-- One `_schedule(text)` call observed at monotonic time `now`: skip when
the text is empty or unchanged, skip when less than 1 second has elapsed
since the last submitted edit, otherwise record the time and text and submit
the edit.  Returns the new closure state and whether an edit was submitted. -/
def _schedule (st : HookState) (now : Rat) (text : String) :
    HookState × Bool :=
  if text = "" ∨ text = st.text then (st, false)
  else if now - st.t < 1 then (st, false)
  else (⟨now, text⟩, true)

/-- Runs a sequence of `_schedule` calls (each progress callback delivered to
the hook renders to one such call) and collects the submitted edits as
`(monotonic time, text)` pairs, in order. -/
def runSchedule (st : HookState) : List (Rat × String) → List (Rat × String)
  | [] => []
  | (now, text) :: rest =>
    let step := _schedule st now text
    if step.2 then (now, text) :: runSchedule step.1 rest
    else runSchedule step.1 rest

/-- The debounce contract between two consecutive submitted edits: at least
1 second apart in monotonic time, and with different texts. -/
def EditsDebounced (a b : Rat × String) : Prop :=
  a.1 + 1 ≤ b.1 ∧ b.2 ≠ a.2

/-- Python `s.startswith(pre)`, evaluated over the underlying character
list. -/
def strStartsWith (s pre : String) : Bool :=
  pre.data.isPrefixOf s.data

/-- Helper for `strSplitOn`: scan the character list, cutting at each
separator (the accumulator holds the current field, reversed). -/
def splitChars (sep : Char) : List Char → List Char → List String
  | [], acc => [String.mk acc.reverse]
  | c :: cs, acc =>
    if c = sep then
      String.mk acc.reverse :: splitChars sep cs []
    else
      splitChars sep cs (c :: acc)

/-- Python `s.split(sep)` for a one-character separator: the fields between
separator occurrences, in order, empty fields included. -/
def strSplitOn (s : String) (sep : Char) : List String :=
  splitChars sep s.data []

/-- `successful_payment_handler`, reduced to its effect on the user store:
`sender_id` is `update.effective_user.id`, `payload` the invoice payload of
the successful payment.  `int(parts[2])` is modelled by the parameter
`parseInt`, with a failed parse falling back to the sender id as in the
`except` arm; the handler's effect does not depend on how `parseInt`
behaves, because any parsed id that differs from the sender is overwritten
by the sender id. -/
def successful_payment_handler (parseInt : String → Option Int)
    (now sender_id : Int) (payload : String) (store : Store) : Store :=
  if strStartsWith payload "cx|" then
    let parts := strSplitOn payload '|'
    if parts.length < 3 then store
    else
      let product := parts.getD 1 ""
      let target0 : Int := (parseInt (parts.getD 2 "")).getD sender_id
      let target : Int := if target0 ≠ sender_id then sender_id else target0
      if product = "premium_30d" then
        _grant_premium now target PREMIUM_DURATION_SECONDS store
      else if product = "credits_10" then _add_credits target 10 store
      else if product = "credits_50" then _add_credits target 50 store
      else store
  else store

/-- The effective premium expiry of a user: stored `premium_until`, with
absent treated as 0 (as `_grant_premium` does). -/
def expiryOf (store : Store) (user_id : Int) : Int :=
  (getRec store user_id).premium_until.getD 0

/-- A sequence of `_grant_premium` calls, each given as
`(wall-clock time of the call, duration in seconds)`. -/
def runGrants (user_id : Int) (calls : List (Int × Int)) (store : Store) :
    Store :=
  calls.foldl (fun st c => _grant_premium c.1 user_id c.2 st) store

/-- Sum of the durations of a call sequence. -/
def sumDur (calls : List (Int × Int)) : Int :=
  (calls.map (fun c => c.2)).sum

/-- Contiguity of a grant sequence relative to a store whose premium window
is already running: every call has positive duration and happens no later
than the expiry accumulated so far ("no gap exceeds the premium window
granted so far"). -/
def contiguousAfter (user_id : Int) : Store → List (Int × Int) → Bool
  | _, [] => true
  | store, (t, d) :: rest =>
    decide (t ≤ expiryOf store user_id) && decide (0 < d) &&
      contiguousAfter user_id (_grant_premium t user_id d store) rest

/-- Contiguity of a whole grant sequence: the first call is unconstrained
(it may start a fresh window), every later call is contiguous. -/
def contiguousCalls (user_id : Int) (store : Store) :
    List (Int × Int) → Bool
  | [] => true
  | (t, d) :: rest =>
    decide (0 < d) &&
      contiguousAfter user_id (_grant_premium t user_id d store) rest

/-- The free-use count the spec attributes to a record on day `today`: the
stored counter when the stored day key is `today`, else 0 ("a stale day
counts as 0 used"). -/
def freeUsedToday (today : String) (r : UserRecord) : Int :=
  if r.effects_free_day = some today then r.effects_free_used.getD 0 else 0

/-- The stored-credits invariant: every record in the store that has a
`credits` field stores a non-negative value. -/
def CreditsNonneg (store : Store) : Prop :=
  ∀ p ∈ store, ∀ c, (p : Int × UserRecord).2.credits = some c → 0 ≤ c

theorem Store.get_set_self (store : Store) (k : Int) (r : UserRecord) :
    Store.get (Store.set store k r) k = some r := by
  induction store with
  | nil => simp [Store.get, Store.set]
  | cons p rest ih =>
    obtain ⟨k0, r0⟩ := p
    by_cases h : k0 = k <;> simp [Store.get, Store.set, h, ih]

theorem Store.get_set_ne (store : Store) (k u : Int) (r : UserRecord)
    (h : k ≠ u) : Store.get (Store.set store k r) u = Store.get store u := by
  induction store with
  | nil => simp [Store.get, Store.set, h]
  | cons p rest ih =>
    obtain ⟨k0, r0⟩ := p
    by_cases h0 : k0 = k
    · subst h0
      simp [Store.get, Store.set, h]
    · simp [Store.get, Store.set, h0, ih]

theorem mem_of_mem_set (store : Store) (k : Int) (r : UserRecord)
    (p : Int × UserRecord) (hp : p ∈ Store.set store k r) :
    p = (k, r) ∨ p ∈ store := by
  induction store with
  | nil => exact Or.inl (List.mem_singleton.mp hp)
  | cons q rest ih =>
    rcases q with ⟨k0, r0⟩
    by_cases h0 : k0 = k
    · subst h0
      have hp2 : p ∈ (k0, r) :: rest := by
        simpa [Store.set] using hp
      rcases List.mem_cons.mp hp2 with h1 | h1
      · exact Or.inl h1
      · exact Or.inr (List.mem_cons_of_mem _ h1)
    · have hp2 : p ∈ (k0, r0) :: Store.set rest k r := by
        simpa [Store.set, h0] using hp
      rcases List.mem_cons.mp hp2 with h1 | h1
      · exact Or.inr (List.mem_cons.mpr (Or.inl h1))
      · rcases ih h1 with h2 | h2
        · exact Or.inl h2
        · exact Or.inr (List.mem_cons_of_mem _ h2)

theorem getRec_set_self (store : Store) (k : Int) (r : UserRecord) :
    getRec (Store.set store k r) k = r := by
  simp [getRec, Store.get_set_self]

theorem getRec_set_ne (store : Store) (k u : Int) (r : UserRecord)
    (h : k ≠ u) : getRec (Store.set store k r) u = getRec store u := by
  simp [getRec, Store.get_set_ne store k u r h]

theorem _get_credits_nonneg (r : UserRecord) : 0 ≤ _get_credits r := by
  unfold _get_credits
  cases r.credits with
  | none => simp
  | some c =>
    by_cases h : 0 < c <;> simp [h]
    omega

theorem toDigitsCore_ne_nil (b fuel n : Nat) (ds : List Char) (h : ds ≠ []) :
    Nat.toDigitsCore b fuel n ds ≠ [] := by
  induction fuel generalizing n ds with
  | zero => simpa [Nat.toDigitsCore]
  | succ fuel ih =>
    unfold Nat.toDigitsCore
    dsimp only
    split
    · simp
    · exact ih _ _ (by simp)

theorem nat_repr_ne_empty (n : Nat) : Nat.repr n ≠ "" := by
  unfold Nat.repr
  intro h
  have hd : Nat.toDigits 10 n = [] := by
    have := congrArg String.data h
    simpa [List.asString] using this
  revert hd
  unfold Nat.toDigits
  unfold Nat.toDigitsCore
  dsimp only
  split
  · simp
  · exact toDigitsCore_ne_nil _ _ _ _ (by simp)

theorem int_toString_pos_ne_empty (i : Int) (h : 0 < i) : toString i ≠ "" := by
  cases i with
  | ofNat m => simpa [Int.repr, toString] using nat_repr_ne_empty m
  | negSucc m => exact absurd (lt_trans h (Int.negSucc_lt_zero m)) (lt_irrefl 0)

theorem _clamp_bounds (val lo hi : Rat) (h : lo ≤ hi) :
    lo ≤ _clamp val lo hi ∧ _clamp val lo hi ≤ hi := by
  unfold _clamp
  split
  · exact ⟨le_refl lo, h⟩
  · split
    · exact ⟨h, le_refl hi⟩
    · rename_i hlt hgt
      exact ⟨le_of_not_lt hlt, le_of_not_lt hgt⟩

/-- C8: loading the record store yields the empty mapping for every
unreadable input — a missing file, an empty file, malformed content, and
well-formed content that is not an object — and, being total on all read
outcomes, never raises past the store boundary. -/
theorem c8_theorem :
    _load_user_store_sync ReadOutcome.missing = [] ∧
    _load_user_store_sync ReadOutcome.emptyContent = [] ∧
    _load_user_store_sync ReadOutcome.malformed = [] ∧
    _load_user_store_sync ReadOutcome.nonObject = [] :=
  ⟨rfl, rfl, rfl, rfl⟩

/-- C2 counterexample: the claim asserts that for arbitrary non-negative
finite stats, equal source and reference stats yield exactly `(0, 1, 1)`;
but for the non-negative stats `yavg = 0, yrange = 9/10, crange = 9/10`
(equal on both sides) the code returns `(0, 9/10, 9/10) ≠ (0, 1, 1)`. -/
theorem c2_counterexample :
    (0 : Rat) ≤ 9 / 10 ∧
    _compute_eq_params ⟨0, 9 / 10, 9 / 10⟩ ⟨0, 9 / 10, 9 / 10⟩ =
      ((0 : Rat), (9 / 10 : Rat), (9 / 10 : Rat)) ∧
    ((0 : Rat), (9 / 10 : Rat), (9 / 10 : Rat)) ≠ ((0 : Rat), (1 : Rat), (1 : Rat)) := by
  refine ⟨by norm_num, ?_, by norm_num⟩
  simp [_compute_eq_params, _clamp]
  norm_num

/-- C2 (amended): `compute_eq_params` is the clamp of the brightness,
contrast and saturation ratios and therefore always lies in
`[-0.35, 0.35] × [0.7, 1.6] × [0.6, 1.8]`; and when the source stats equal
the reference stats **with `yrange` and `crange` at least 1** (as every
stats value produced by the extractor is, both being floored at 1), the
result is exactly `(0, 1, 1)`. -/
theorem c2_theorem (src ref st : SignalStats)
    (h1 : 1 ≤ st.yrange) (h2 : 1 ≤ st.crange) :
    (-(35 / 100) ≤ (_compute_eq_params src ref).1 ∧
      (_compute_eq_params src ref).1 ≤ 35 / 100) ∧
    (7 / 10 ≤ (_compute_eq_params src ref).2.1 ∧
      (_compute_eq_params src ref).2.1 ≤ 16 / 10) ∧
    (6 / 10 ≤ (_compute_eq_params src ref).2.2 ∧
      (_compute_eq_params src ref).2.2 ≤ 18 / 10) ∧
    _compute_eq_params st st = (0, 1, 1) := by
  refine ⟨?_, ?_, ?_, ?_⟩
  · exact _clamp_bounds _ _ _ (by norm_num)
  · exact _clamp_bounds _ _ _ (by norm_num)
  · exact _clamp_bounds _ _ _ (by norm_num)
  · have hy : st.yrange ≠ 0 := by linarith
    have hc : st.crange ≠ 0 := by linarith
    simp only [_compute_eq_params, sub_self, zero_div,
      max_eq_right h1, max_eq_right h2, div_self hy, div_self hc]
    norm_num [_clamp]

/-- C2 witness. -/
theorem c2_witness :
    ((1 : Rat) ≤ (⟨5, 2, 3⟩ : SignalStats).yrange ∧
      (1 : Rat) ≤ (⟨5, 2, 3⟩ : SignalStats).crange) ∧
    ((-(35 / 100) ≤ (_compute_eq_params ⟨0, 0, 0⟩ ⟨300, 5, 5⟩).1 ∧
      (_compute_eq_params ⟨0, 0, 0⟩ ⟨300, 5, 5⟩).1 ≤ 35 / 100) ∧
    (7 / 10 ≤ (_compute_eq_params ⟨0, 0, 0⟩ ⟨300, 5, 5⟩).2.1 ∧
      (_compute_eq_params ⟨0, 0, 0⟩ ⟨300, 5, 5⟩).2.1 ≤ 16 / 10) ∧
    (6 / 10 ≤ (_compute_eq_params ⟨0, 0, 0⟩ ⟨300, 5, 5⟩).2.2 ∧
      (_compute_eq_params ⟨0, 0, 0⟩ ⟨300, 5, 5⟩).2.2 ≤ 18 / 10) ∧
    _compute_eq_params ⟨5, 2, 3⟩ ⟨5, 2, 3⟩ = (0, 1, 1)) :=
  ⟨⟨by norm_num, by norm_num⟩,
    c2_theorem ⟨0, 0, 0⟩ ⟨300, 5, 5⟩ ⟨5, 2, 3⟩ (by norm_num) (by norm_num)⟩

/-- C1 counterexample: the claim says `apply_eq` passes the audio stream
through unmodified; but the transcoder command it builds never contains the
stream-copy codec directive — instead it re-encodes audio
(`-c:a aac -b:a 128k`), shown here at a concrete invocation. -/
theorem c1_counterexample :
    ¬ specAudioPassthrough
        (_apply_eq_cmd "ffmpeg" "in.mp4" "out.mp4" "0.0000" "1.0000" "1.0000") ∧
    "aac" ∈ _apply_eq_cmd "ffmpeg" "in.mp4" "out.mp4" "0.0000" "1.0000" "1.0000" := by
  constructor
  · intro h
    exact absurd h.2 (by decide)
  · decide

/-- C1 (amended): `apply_eq` re-encodes the input, applying the
brightness/contrast/saturation `eq` video filter (`-vf`, which acts on the
video stream only) to the single mapped video stream `0:v:0`, and maps the
audio stream when one is present (`-map 0:a?`) — but re-encodes it to AAC at
128 kb/s rather than passing it through unmodified; a non-zero exit of the
underlying transcoder makes the whole operation fail, and a zero exit
succeeds. -/
theorem c1_theorem (runFail runOk : List String → Int)
    (exe in_path out_path bs cs ss : String)
    (hf : runFail (_apply_eq_cmd exe in_path out_path bs cs ss) ≠ 0)
    (hk : runOk (_apply_eq_cmd exe in_path out_path bs cs ss) = 0) :
    (_apply_eq_cmd exe in_path out_path bs cs ss).getD 5 "" = "-map" ∧
    (_apply_eq_cmd exe in_path out_path bs cs ss).getD 6 "" = "0:v:0" ∧
    (_apply_eq_cmd exe in_path out_path bs cs ss).getD 7 "" = "-map" ∧
    (_apply_eq_cmd exe in_path out_path bs cs ss).getD 8 "" = "0:a?" ∧
    (_apply_eq_cmd exe in_path out_path bs cs ss).getD 9 "" = "-vf" ∧
    (_apply_eq_cmd exe in_path out_path bs cs ss).getD 10 "" = _eq_vf bs cs ss ∧
    (_apply_eq_cmd exe in_path out_path bs cs ss).getD 17 "" = "-c:a" ∧
    (_apply_eq_cmd exe in_path out_path bs cs ss).getD 18 "" = "aac" ∧
    (_apply_eq_cmd exe in_path out_path bs cs ss).getD 19 "" = "-b:a" ∧
    (_apply_eq_cmd exe in_path out_path bs cs ss).getD 20 "" = "128k" ∧
    _apply_eq_filter runFail exe in_path out_path bs cs ss = Except.error () ∧
    _apply_eq_filter runOk exe in_path out_path bs cs ss = Except.ok () := by
  refine ⟨rfl, rfl, rfl, rfl, rfl, rfl, rfl, rfl, rfl, rfl, ?_, ?_⟩
  · simp [_apply_eq_filter, hf]
  · simp [_apply_eq_filter, hk]

/-- C1 witness. -/
theorem c1_witness :
    ((fun _ : List String => (1 : Int))
        (_apply_eq_cmd "ffmpeg" "a.mp4" "b.mp4" "0.0000" "1.0000" "1.0000") ≠ 0) ∧
    ((fun _ : List String => (0 : Int))
        (_apply_eq_cmd "ffmpeg" "a.mp4" "b.mp4" "0.0000" "1.0000" "1.0000") = 0) ∧
    ((_apply_eq_cmd "ffmpeg" "a.mp4" "b.mp4" "0.0000" "1.0000" "1.0000").getD 5 "" = "-map" ∧
     (_apply_eq_cmd "ffmpeg" "a.mp4" "b.mp4" "0.0000" "1.0000" "1.0000").getD 6 "" = "0:v:0" ∧
     (_apply_eq_cmd "ffmpeg" "a.mp4" "b.mp4" "0.0000" "1.0000" "1.0000").getD 7 "" = "-map" ∧
     (_apply_eq_cmd "ffmpeg" "a.mp4" "b.mp4" "0.0000" "1.0000" "1.0000").getD 8 "" = "0:a?" ∧
     (_apply_eq_cmd "ffmpeg" "a.mp4" "b.mp4" "0.0000" "1.0000" "1.0000").getD 9 "" = "-vf" ∧
     (_apply_eq_cmd "ffmpeg" "a.mp4" "b.mp4" "0.0000" "1.0000" "1.0000").getD 10 ""
       = _eq_vf "0.0000" "1.0000" "1.0000" ∧
     (_apply_eq_cmd "ffmpeg" "a.mp4" "b.mp4" "0.0000" "1.0000" "1.0000").getD 17 "" = "-c:a" ∧
     (_apply_eq_cmd "ffmpeg" "a.mp4" "b.mp4" "0.0000" "1.0000" "1.0000").getD 18 "" = "aac" ∧
     (_apply_eq_cmd "ffmpeg" "a.mp4" "b.mp4" "0.0000" "1.0000" "1.0000").getD 19 "" = "-b:a" ∧
     (_apply_eq_cmd "ffmpeg" "a.mp4" "b.mp4" "0.0000" "1.0000" "1.0000").getD 20 "" = "128k" ∧
     _apply_eq_filter (fun _ => 1) "ffmpeg" "a.mp4" "b.mp4" "0.0000" "1.0000" "1.0000"
       = Except.error () ∧
     _apply_eq_filter (fun _ => 0) "ffmpeg" "a.mp4" "b.mp4" "0.0000" "1.0000" "1.0000"
       = Except.ok ()) :=
  ⟨by simp, by simp,
    c1_theorem (fun _ => 1) (fun _ => 0) "ffmpeg" "a.mp4" "b.mp4"
      "0.0000" "1.0000" "1.0000" (by simp) (by simp)⟩

/-- C6: `plan` is exactly the read-only cascade — `premium` when premium is
currently active, else `free` when the free uses recorded for the current
UTC day (a stale day counting as 0) are below the fixed daily limit of 2,
else `credit` when the credit balance is positive, else denied (`none`) —
computed from the stored record without mutating it (the embedding of the
source's `plan`, which performs no store write, is a pure function of the
store). -/
theorem c6_theorem (now : Int) (today : String) (user_id : Int) (store : Store) :
    _plan_effect_entitlement now today user_id store =
      (if _is_premium_now now (getRec store user_id) then some "premium"
       else if freeUsedToday today (getRec store user_id) < FREE_EFFECTS_PER_DAY then
         some "free"
       else if 0 < _get_credits (getRec store user_id) then some "credit"
       else none) := by
  rfl

/-- C7: `finalize(user, "free")` across a UTC day boundary resets the stored
counter to 0 for the new day and then increments it to 1 whenever the stored
day key differs from the current day; and for a fresh user, two plan calls
on day `d1` both return `free` after each is finalized, a third plan on day
`d1` returns `credit` or denied, and the first plan on any other day `d2`
returns `free` again regardless of day-`d1` usage. -/
theorem c7_theorem (now : Int) (today d1 d2 : String) (user_id u2 : Int)
    (store store2 : Store)
    (hstale : (getRec store user_id).effects_free_day ≠ some today)
    (hfresh : Store.get store2 u2 = none)
    (hd : d2 ≠ d1) :
    (getRec (_finalize_effect_entitlement today user_id (some "free") store)
        user_id).effects_free_day = some today ∧
    (getRec (_finalize_effect_entitlement today user_id (some "free") store)
        user_id).effects_free_used = some 1 ∧
    _plan_effect_entitlement now d1 u2 store2 = some "free" ∧
    _plan_effect_entitlement now d1 u2
        (_finalize_effect_entitlement d1 u2 (some "free") store2) = some "free" ∧
    (_plan_effect_entitlement now d1 u2
        (_finalize_effect_entitlement d1 u2 (some "free")
          (_finalize_effect_entitlement d1 u2 (some "free") store2)) = some "credit" ∨
      _plan_effect_entitlement now d1 u2
        (_finalize_effect_entitlement d1 u2 (some "free")
          (_finalize_effect_entitlement d1 u2 (some "free") store2)) = none) ∧
    _plan_effect_entitlement now d2 u2
        (_finalize_effect_entitlement d1 u2 (some "free")
          (_finalize_effect_entitlement d1 u2 (some "free") store2)) = some "free" := by
  have hrec2 : getRec store2 u2 = UserRecord.empty := by
    simp [getRec, hfresh]
  have hfin : _finalize_effect_entitlement today user_id (some "free") store
      = Store.set store user_id
          { getRec store user_id with
              effects_free_day := some today, effects_free_used := some 1 } := by
    simp [_finalize_effect_entitlement, hstale]
  have hs1 : _finalize_effect_entitlement d1 u2 (some "free") store2
      = Store.set store2 u2 ⟨none, none, some d1, some 1, none, none, none⟩ := by
    simp [_finalize_effect_entitlement, hrec2, UserRecord.empty]
  have hr1 : getRec (_finalize_effect_entitlement d1 u2 (some "free") store2) u2
      = ⟨none, none, some d1, some 1, none, none, none⟩ := by
    rw [hs1, getRec_set_self]
  have hs2 : _finalize_effect_entitlement d1 u2 (some "free")
        (_finalize_effect_entitlement d1 u2 (some "free") store2)
      = Store.set (_finalize_effect_entitlement d1 u2 (some "free") store2) u2
          ⟨none, none, some d1, some 2, none, none, none⟩ := by
    conv_lhs => rw [hs1]
    conv_rhs => rw [hs1]
    simp [_finalize_effect_entitlement, getRec_set_self]
  have hr2 : getRec (_finalize_effect_entitlement d1 u2 (some "free")
        (_finalize_effect_entitlement d1 u2 (some "free") store2)) u2
      = ⟨none, none, some d1, some 2, none, none, none⟩ := by
    rw [hs2, getRec_set_self]
  have hd' : d1 ≠ d2 := Ne.symm hd
  refine ⟨?_, ?_, ?_, ?_, ?_, ?_⟩
  · rw [hfin, getRec_set_self]
  · rw [hfin, getRec_set_self]
  · simp [_plan_effect_entitlement, hrec2, UserRecord.empty, _is_premium_now,
      FREE_EFFECTS_PER_DAY]
  · simp [_plan_effect_entitlement, hr1, _is_premium_now, FREE_EFFECTS_PER_DAY]
  · refine Or.inr ?_
    simp [_plan_effect_entitlement, hr2, _is_premium_now, _get_credits,
      FREE_EFFECTS_PER_DAY]
  · simp [_plan_effect_entitlement, hr2, _is_premium_now, FREE_EFFECTS_PER_DAY, hd']

/-- C7 witness. -/
theorem c7_witness :
    ((getRec ([] : Store) 1).effects_free_day ≠ some "2024-01-02" ∧
      Store.get ([] : Store) 1 = none ∧ "E" ≠ "D") ∧
    ((getRec (_finalize_effect_entitlement "2024-01-02" 1 (some "free") [])
        1).effects_free_day = some "2024-01-02" ∧
    (getRec (_finalize_effect_entitlement "2024-01-02" 1 (some "free") [])
        1).effects_free_used = some 1 ∧
    _plan_effect_entitlement 0 "D" 1 [] = some "free" ∧
    _plan_effect_entitlement 0 "D" 1
        (_finalize_effect_entitlement "D" 1 (some "free") []) = some "free" ∧
    (_plan_effect_entitlement 0 "D" 1
        (_finalize_effect_entitlement "D" 1 (some "free")
          (_finalize_effect_entitlement "D" 1 (some "free") [])) = some "credit" ∨
      _plan_effect_entitlement 0 "D" 1
        (_finalize_effect_entitlement "D" 1 (some "free")
          (_finalize_effect_entitlement "D" 1 (some "free") [])) = none) ∧
    _plan_effect_entitlement 0 "E" 1
        (_finalize_effect_entitlement "D" 1 (some "free")
          (_finalize_effect_entitlement "D" 1 (some "free") [])) = some "free") :=
  ⟨⟨by decide, rfl, by decide⟩,
    c7_theorem 0 "2024-01-02" "D" "E" 1 1 [] [] (by decide) rfl (by decide)⟩

theorem expiry_grant_pos (now user_id d : Int) (store : Store) (hd : 0 < d) :
    expiryOf (_grant_premium now user_id d store) user_id
      = max now (expiryOf store user_id) + d := by
  have hne : ¬ d ≤ 0 := by omega
  unfold _grant_premium
  rw [if_neg hne]
  unfold expiryOf
  rw [getRec_set_self]
  by_cases hb : (getRec store user_id).premium_until.getD 0 < now
  · simp only [if_pos hb, Option.getD_some]
    rw [max_eq_left (le_of_lt hb)]
  · simp only [if_neg hb, Option.getD_some]
    rw [max_eq_right (le_of_not_lt hb)]

theorem expiry_runGrants_contiguous (user_id : Int) (calls : List (Int × Int)) :
    ∀ store : Store, contiguousAfter user_id store calls = true →
      expiryOf (runGrants user_id calls store) user_id
        = expiryOf store user_id + sumDur calls := by
  induction calls with
  | nil =>
    intro store _
    simp [runGrants, sumDur]
  | cons c rest ih =>
    intro store hc
    rcases c with ⟨t, d⟩
    simp only [contiguousAfter, Bool.and_eq_true, decide_eq_true_eq] at hc
    obtain ⟨⟨ht, hd⟩, hrest⟩ := hc
    have hstep : expiryOf (_grant_premium t user_id d store) user_id
        = expiryOf store user_id + d := by
      rw [expiry_grant_pos t user_id d store hd, max_eq_right ht]
    have htail := ih (_grant_premium t user_id d store) hrest
    simp only [runGrants, List.foldl_cons] at htail ⊢
    rw [htail, hstep]
    simp only [sumDur, List.map_cons, List.sum_cons]
    ring

/-- C3 counterexample: the claim says a contiguous sequence of grants ends
with `premium_until = now_at_last_call + sum(di)`; but from the empty store,
granting 10 seconds at time 0 and 10 more at time 5 (contiguous: the gap of
5 is within the 10-second window granted so far) ends with expiry 20, not
`5 + (10 + 10) = 25`. -/
theorem c3_counterexample :
    contiguousCalls 1 [] [(0, 10), (5, 10)] = true ∧
    expiryOf (runGrants 1 [(0, 10), (5, 10)] []) 1 = 20 ∧
    (20 : Int) ≠ 5 + (10 + 10) := by
  refine ⟨by decide, by decide, by decide⟩

/-- C3 (amended): a grant with non-positive duration is a no-op; a positive
grant extends the expiry from `max(now, current premium_until)` and so never
regresses it; and a contiguous sequence of positive grants `d1..dn` (no call
later than the expiry accumulated so far) ends with
`premium_until = max(now_at_first_call, initial expiry) + (d1 + ... + dn)`
— the durations accumulate additively from the start of the sequence, not
from the time of the last call. -/
theorem c3_theorem (user_id t d dnp : Int) (store : Store)
    (rest : List (Int × Int)) (hnp : dnp ≤ 0) (hd : 0 < d)
    (hcont : contiguousAfter user_id (_grant_premium t user_id d store) rest
      = true) :
    _grant_premium t user_id dnp store = store ∧
    expiryOf store user_id ≤ expiryOf (_grant_premium t user_id d store) user_id ∧
    expiryOf (_grant_premium t user_id d store) user_id
      = max t (expiryOf store user_id) + d ∧
    expiryOf (runGrants user_id ((t, d) :: rest) store) user_id
      = max t (expiryOf store user_id) + (d + sumDur rest) := by
  have h1 : _grant_premium t user_id dnp store = store := by
    unfold _grant_premium
    rw [if_pos hnp]
  have h3 := expiry_grant_pos t user_id d store hd
  have h2 : expiryOf store user_id
      ≤ expiryOf (_grant_premium t user_id d store) user_id := by
    have := le_max_right t (expiryOf store user_id)
    omega
  have h4 : expiryOf (runGrants user_id ((t, d) :: rest) store) user_id
      = max t (expiryOf store user_id) + (d + sumDur rest) := by
    have htail := expiry_runGrants_contiguous user_id rest
      (_grant_premium t user_id d store) hcont
    simp only [runGrants, List.foldl_cons] at htail ⊢
    rw [htail, h3]
    ring
  exact ⟨h1, h2, h3, h4⟩

/-- C3 witness. -/
theorem c3_witness :
    ((-1 : Int) ≤ 0 ∧ (0 : Int) < 10 ∧
      contiguousAfter 1 (_grant_premium 0 1 10 []) [(5, 10)] = true) ∧
    (_grant_premium 0 1 (-1) [] = [] ∧
     expiryOf ([] : Store) 1 ≤ expiryOf (_grant_premium 0 1 10 []) 1 ∧
     expiryOf (_grant_premium 0 1 10 []) 1 = max 0 (expiryOf ([] : Store) 1) + 10 ∧
     expiryOf (runGrants 1 [(0, 10), (5, 10)] []) 1
       = max 0 (expiryOf ([] : Store) 1) + (10 + sumDur [(5, 10)])) :=
  ⟨⟨by decide, by decide, by decide⟩,
    c3_theorem 1 0 10 (-1) [] [(5, 10)] (by decide) (by decide) (by decide)⟩

theorem runSchedule_debounced (events : List (Rat × String)) :
    ∀ st : HookState,
      List.Chain' EditsDebounced (runSchedule st events) ∧
      ∀ x : Rat × String, (runSchedule st events).head? = some x →
        st.t + 1 ≤ x.1 ∧ x.2 ≠ st.text := by
  induction events with
  | nil =>
    intro st
    simp [runSchedule]
  | cons e rest ih =>
    intro st
    rcases e with ⟨now, text⟩
    by_cases h1 : text = "" ∨ text = st.text
    · have hs : _schedule st now text = (st, false) := by
        simp [_schedule, h1]
      simp only [runSchedule, hs]
      exact ih st
    · by_cases h2 : now - st.t < 1
      · have hs : _schedule st now text = (st, false) := by
          simp only [_schedule, if_neg h1, if_pos h2]
        simp only [runSchedule, hs]
        exact ih st
      · have hs : _schedule st now text = (⟨now, text⟩, true) := by
          simp only [_schedule, if_neg h1, if_neg h2]
        simp only [runSchedule, hs, if_true]
        have hstep : st.t + 1 ≤ now ∧ text ≠ st.text := by
          constructor
          · have := le_of_not_lt h2
            linarith
          · intro he
            exact h1 (Or.inr he)
        constructor
        · rw [List.chain'_cons']
          refine ⟨?_, (ih ⟨now, text⟩).1⟩
          intro y hy
          have hh := (ih ⟨now, text⟩).2 y (Option.mem_def.mp hy)
          exact ⟨hh.1, hh.2⟩
        · intro x hx
          have : (now, text) = x := by
            simpa using hx
          rw [← this]
          exact hstep

/-- C9: over any sequence of progress callbacks delivered to one hook, the
submitted message edits are debounced: every two consecutive submitted edits
are at least 1 second apart in monotonic time, and each submitted text
differs from the last submitted text (so, by transitivity of the time bound,
at most one edit is submitted per rolling 1-second window). -/
theorem c9_theorem (events : List (Rat × String)) :
    List.Chain' EditsDebounced (runSchedule hookInit events) :=
  (runSchedule_debounced events hookInit).1

theorem get_grant_ne (now uid sec u : Int) (store : Store) (h : u ≠ uid) :
    Store.get (_grant_premium now uid sec store) u = Store.get store u := by
  unfold _grant_premium
  split
  · rfl
  · exact Store.get_set_ne store uid u _ (Ne.symm h)

theorem get_add_ne (uid amt u : Int) (store : Store) (h : u ≠ uid) :
    Store.get (_add_credits uid amt store) u = Store.get store u := by
  unfold _add_credits
  split
  · rfl
  · exact Store.get_set_ne store uid u _ (Ne.symm h)

/-- C10: a successful-payment update with payload `cx|<product>|<id>` applies
the premium grant or credit addition to the id of the user who sent the
payment — never to the id embedded in the payload, which is overwritten by
the sender id whenever the two differ (so the record of any other user is
untouched) — and a payload that does not start with `cx|` or has fewer than
three `|`-separated parts causes no store mutation at all. -/
theorem c10_theorem (parseInt : String → Option Int) (now sender uid : Int)
    (pbad p : String) (store : Store)
    (huid : uid ≠ sender)
    (hbad : ¬ strStartsWith pbad "cx|" = true ∨ (strSplitOn pbad '|').length < 3)
    (hstart : strStartsWith p "cx|" = true)
    (hlen : ¬ (strSplitOn p '|').length < 3) :
    successful_payment_handler parseInt now sender pbad store = store ∧
    Store.get (successful_payment_handler parseInt now sender p store) uid
      = Store.get store uid ∧
    successful_payment_handler parseInt now sender p store =
      (if (strSplitOn p '|').getD 1 "" = "premium_30d" then
        _grant_premium now sender PREMIUM_DURATION_SECONDS store
       else if (strSplitOn p '|').getD 1 "" = "credits_10" then
        _add_credits sender 10 store
       else if (strSplitOn p '|').getD 1 "" = "credits_50" then
        _add_credits sender 50 store
       else store) := by
  have h1 : successful_payment_handler parseInt now sender pbad store = store := by
    by_cases hstart2 : strStartsWith pbad "cx|" = true
    · have hlen2 : (strSplitOn pbad '|').length < 3 := by tauto
      simp only [successful_payment_handler, if_pos hstart2, if_pos hlen2]
    · simp only [successful_payment_handler, if_neg hstart2]
  have h3 : successful_payment_handler parseInt now sender p store =
      (if (strSplitOn p '|').getD 1 "" = "premium_30d" then
        _grant_premium now sender PREMIUM_DURATION_SECONDS store
       else if (strSplitOn p '|').getD 1 "" = "credits_10" then
        _add_credits sender 10 store
       else if (strSplitOn p '|').getD 1 "" = "credits_50" then
        _add_credits sender 50 store
       else store) := by
    simp only [successful_payment_handler, if_pos hstart, if_neg hlen]
    by_cases ht : (parseInt ((strSplitOn p '|').getD 2 "")).getD sender ≠ sender
    · simp only [if_pos ht]
    · rw [not_ne_iff] at ht
      simp only [ht, ne_eq, not_true_eq_false, if_false]
  have h2 : Store.get (successful_payment_handler parseInt now sender p store) uid
      = Store.get store uid := by
    rw [h3]
    by_cases hp1 : (strSplitOn p '|').getD 1 "" = "premium_30d"
    · rw [if_pos hp1]
      exact get_grant_ne now sender PREMIUM_DURATION_SECONDS uid store huid
    · rw [if_neg hp1]
      by_cases hp2 : (strSplitOn p '|').getD 1 "" = "credits_10"
      · rw [if_pos hp2]
        exact get_add_ne sender 10 uid store huid
      · rw [if_neg hp2]
        by_cases hp3 : (strSplitOn p '|').getD 1 "" = "credits_50"
        · rw [if_pos hp3]
          exact get_add_ne sender 50 uid store huid
        · rw [if_neg hp3]
  exact ⟨h1, h2, h3⟩

/-- C10 witness. -/
theorem c10_witness :
    ((2 : Int) ≠ 1 ∧
      (¬ strStartsWith "x" "cx|" = true ∨ (strSplitOn "x" '|').length < 3) ∧
      strStartsWith "cx|credits_10|999" "cx|" = true ∧
      ¬ (strSplitOn "cx|credits_10|999" '|').length < 3) ∧
    (successful_payment_handler (fun _ => none) 0 1 "x" [] = [] ∧
     Store.get (successful_payment_handler (fun _ => none) 0 1
         "cx|credits_10|999" []) 2
       = Store.get ([] : Store) 2 ∧
     successful_payment_handler (fun _ => none) 0 1 "cx|credits_10|999" [] =
       (if (strSplitOn "cx|credits_10|999" '|').getD 1 "" = "premium_30d" then
         _grant_premium 0 1 PREMIUM_DURATION_SECONDS []
        else if (strSplitOn "cx|credits_10|999" '|').getD 1 "" = "credits_10" then
         _add_credits 1 10 []
        else if (strSplitOn "cx|credits_10|999" '|').getD 1 "" = "credits_50" then
         _add_credits 1 50 []
        else [])) :=
  ⟨⟨by decide, Or.inl (by decide), by decide, by decide⟩,
    c10_theorem (fun _ => none) 0 1 2 "x" "cx|credits_10|999" [] (by decide)
      (Or.inl (by decide)) (by decide) (by decide)⟩

theorem get_mem (store : Store) (k : Int) (r : UserRecord)
    (h : Store.get store k = some r) : (k, r) ∈ store := by
  induction store with
  | nil => simp [Store.get] at h
  | cons p rest ih =>
    rcases p with ⟨k0, r0⟩
    by_cases h0 : k0 = k
    · subst h0
      simp [Store.get] at h
      subst h
      exact List.mem_cons_self _ _
    · simp only [Store.get, if_neg h0] at h
      exact List.mem_cons_of_mem _ (ih h)

theorem creditsNonneg_set (store : Store) (k : Int) (r : UserRecord)
    (h : CreditsNonneg store) (hr : ∀ c, r.credits = some c → 0 ≤ c) :
    CreditsNonneg (Store.set store k r) := by
  intro p hp c hc
  rcases mem_of_mem_set store k r p hp with h1 | h1
  · subst h1
    exact hr c hc
  · exact h p h1 c hc

theorem creditsNonneg_getRec (store : Store) (uid : Int)
    (h : CreditsNonneg store) :
    ∀ c, (getRec store uid).credits = some c → 0 ≤ c := by
  intro c hc
  unfold getRec at hc
  cases hg : Store.get store uid with
  | none =>
    rw [hg] at hc
    simp [UserRecord.empty] at hc
  | some r =>
    rw [hg] at hc
    simp only [Option.getD_some] at hc
    exact h (uid, r) (get_mem store uid r hg) c hc

theorem _get_credits_some_pos (r : UserRecord) (v : Int) (hv : 0 < v) :
    _get_credits { r with credits := some v } = v := by
  simp [_get_credits, hv]

theorem _get_credits_add_pos (r : UserRecord) (m : Int) (hm : 0 < m) :
    _get_credits { r with credits := some (_get_credits r + m) }
      = _get_credits r + m := by
  have h0 := _get_credits_nonneg r
  exact _get_credits_some_pos r _ (by omega)

/-- C4: the stored credits balance stays a non-negative integer across every
ledger operation — `add_credits`, `finalize`, `grant_premium` and
`apply_referral` all preserve the non-negativity invariant of the store —
and in particular `add_credits` with a non-positive amount leaves the store
unchanged, and `finalize(user, "credit")` on a balance of 0 leaves the
balance at 0. -/
theorem c4_theorem (user_id amtA amtN t sec nu ru : Int) (k : Option String)
    (today : String) (store : Store)
    (hnn : CreditsNonneg store) (hneg : amtN ≤ 0)
    (hzero : _get_credits (getRec store user_id) = 0) :
    _add_credits user_id amtN store = store ∧
    _get_credits (getRec (_finalize_effect_entitlement today user_id
        (some "credit") store) user_id) = 0 ∧
    CreditsNonneg (_add_credits user_id amtA store) ∧
    CreditsNonneg (_finalize_effect_entitlement today user_id k store) ∧
    CreditsNonneg (_grant_premium t user_id sec store) ∧
    CreditsNonneg (_apply_referral nu ru store).2 := by
  refine ⟨?_, ?_, ?_, ?_, ?_, ?_⟩
  · unfold _add_credits
    rw [if_pos hneg]
  · have hfc : _finalize_effect_entitlement today user_id (some "credit") store
        = Store.set store user_id
            { getRec store user_id with
                credits := some (max 0 (_get_credits (getRec store user_id) - 1)) } := by
      simp [_finalize_effect_entitlement]
    rw [hfc, getRec_set_self, hzero]
    norm_num [_get_credits]
  · by_cases ha : amtA ≤ 0
    · simp only [_add_credits, if_pos ha]
      exact hnn
    · simp only [_add_credits, if_neg ha]
      refine creditsNonneg_set _ _ _ hnn ?_
      intro c hc
      simp only [Option.some.injEq] at hc
      rw [← hc]
      exact le_max_left _ _
  · by_cases hk : k = some "premium" ∨ k = some "free" ∨ k = some "credit"
    · by_cases hkp : k = some "premium"
      · simp only [_finalize_effect_entitlement, if_pos hk, if_pos hkp]
        exact hnn
      · by_cases hkf : k = some "free"
        · simp only [_finalize_effect_entitlement, if_pos hk, if_neg hkp,
            if_pos hkf]
          refine creditsNonneg_set _ _ _ hnn ?_
          intro c hc
          exact creditsNonneg_getRec store user_id hnn c hc
        · simp only [_finalize_effect_entitlement, if_pos hk, if_neg hkp,
            if_neg hkf]
          refine creditsNonneg_set _ _ _ hnn ?_
          intro c hc
          simp only [Option.some.injEq] at hc
          rw [← hc]
          exact le_max_left _ _
    · simp only [_finalize_effect_entitlement, if_neg hk]
      exact hnn
  · by_cases hs : sec ≤ 0
    · simp only [_grant_premium, if_pos hs]
      exact hnn
    · simp only [_grant_premium, if_neg hs]
      refine creditsNonneg_set _ _ _ hnn ?_
      intro c hc
      exact creditsNonneg_getRec store user_id hnn c hc
  · by_cases hg1 : nu ≤ 0 ∨ ru ≤ 0
    · simp only [_apply_referral, if_pos hg1]
      exact hnn
    · by_cases hg2 : nu = ru
      · simp only [_apply_referral, if_neg hg1, if_pos hg2]
        exact hnn
      · by_cases hg3 : truthyStr (getRec store nu).referred_by = true
        · simp only [_apply_referral, if_neg hg1, if_neg hg2, if_pos hg3]
          exact hnn
        · simp only [_apply_referral, if_neg hg1, if_neg hg2, if_neg hg3]
          refine creditsNonneg_set _ _ _ ?_ ?_
          · refine creditsNonneg_set _ _ _ ?_ ?_
            · refine creditsNonneg_set _ _ _ hnn ?_
              intro c hc
              exact creditsNonneg_getRec store nu hnn c hc
            · intro c hc
              simp only [Option.some.injEq] at hc
              rw [← hc]
              exact add_nonneg (_get_credits_nonneg _) (by norm_num)
          · intro c hc
            simp only [Option.some.injEq] at hc
            rw [← hc]
            exact add_nonneg (_get_credits_nonneg _) (by norm_num)

/-- C4 witness. -/
theorem c4_witness :
    (CreditsNonneg [] ∧ (-1 : Int) ≤ 0 ∧
      _get_credits (getRec ([] : Store) 1) = 0) ∧
    (_add_credits 1 (-1) [] = [] ∧
     _get_credits (getRec (_finalize_effect_entitlement "D" 1
        (some "credit") []) 1) = 0 ∧
     CreditsNonneg (_add_credits 1 3 []) ∧
     CreditsNonneg (_finalize_effect_entitlement "D" 1 (some "free") []) ∧
     CreditsNonneg (_grant_premium 0 1 5 []) ∧
     CreditsNonneg (_apply_referral 1 2 []).2) :=
  ⟨⟨by simp [CreditsNonneg], by norm_num, by decide⟩,
    c4_theorem 1 3 (-1) 0 5 1 2 (some "free") "D" []
      (by simp [CreditsNonneg]) (by norm_num) (by decide)⟩

/-- C5: `apply_referral` returns `false` and leaves the store unchanged when
an id is non-positive, the ids are equal, or the new user already has a
referrer recorded; on a first successful call it records `referred_by` on
the new user, increments the referrer's `ref_count`, adds 5 credits to the
referrer and 2 to the new user, and returns `true`; and any second call for
the same new user is a no-op returning `false`, so the credits are applied
exactly once. -/
theorem c5_theorem (x y n rf rf2 : Int) (storeA store : Store)
    (hxy : x ≤ 0 ∨ y ≤ 0 ∨ x = y)
    (hn : 0 < n) (hrf : 0 < rf) (hne : n ≠ rf)
    (hnotref : truthyStr (getRec store n).referred_by = false) :
    _apply_referral x y storeA = (false, storeA) ∧
    (_apply_referral n rf store).1 = true ∧
    (getRec (_apply_referral n rf store).2 n).referred_by
      = some (toString rf) ∧
    _get_credits (getRec (_apply_referral n rf store).2 n)
      = _get_credits (getRec store n) + 2 ∧
    _get_credits (getRec (_apply_referral n rf store).2 rf)
      = _get_credits (getRec store rf) + 5 ∧
    (getRec (_apply_referral n rf store).2 rf).ref_count.getD 0
      = (getRec store rf).ref_count.getD 0 + 1 ∧
    _apply_referral n rf2 (_apply_referral n rf store).2
      = (false, (_apply_referral n rf store).2) := by
  have hng : ¬ (n ≤ 0 ∨ rf ≤ 0) := by omega
  have hg3 : ¬ truthyStr (getRec store n).referred_by = true := by
    simp [hnotref]
  have hgetrf : getRec (Store.set store n
        { getRec store n with referred_by := some (toString rf) }) rf
      = getRec store rf :=
    getRec_set_ne store n rf _ hne
  have h1 : _apply_referral x y storeA = (false, storeA) := by
    by_cases hg : x ≤ 0 ∨ y ≤ 0
    · simp only [_apply_referral, if_pos hg]
    · have hxy2 : x = y := by tauto
      simp only [_apply_referral, if_neg hg, if_pos hxy2]
  have h2 : (_apply_referral n rf store).1 = true := by
    simp only [_apply_referral, if_neg hng, if_neg hne, if_neg hg3]
  have h3 : (getRec (_apply_referral n rf store).2 n).referred_by
      = some (toString rf) := by
    simp only [_apply_referral, if_neg hng, if_neg hne, if_neg hg3]
    rw [getRec_set_self]
  have h4 : _get_credits (getRec (_apply_referral n rf store).2 n)
      = _get_credits (getRec store n) + 2 := by
    simp only [_apply_referral, if_neg hng, if_neg hne, if_neg hg3]
    rw [getRec_set_self]
    exact _get_credits_add_pos _ 2 (by norm_num)
  have h5 : _get_credits (getRec (_apply_referral n rf store).2 rf)
      = _get_credits (getRec store rf) + 5 := by
    simp only [_apply_referral, if_neg hng, if_neg hne, if_neg hg3]
    rw [getRec_set_ne _ n rf _ hne, getRec_set_self, hgetrf]
    exact _get_credits_add_pos _ 5 (by norm_num)
  have h6 : (getRec (_apply_referral n rf store).2 rf).ref_count.getD 0
      = (getRec store rf).ref_count.getD 0 + 1 := by
    simp only [_apply_referral, if_neg hng, if_neg hne, if_neg hg3]
    rw [getRec_set_ne _ n rf _ hne, getRec_set_self, hgetrf]
    rfl
  have h7 : _apply_referral n rf2 (_apply_referral n rf store).2
      = (false, (_apply_referral n rf store).2) := by
    have hts : toString rf ≠ "" := int_toString_pos_ne_empty rf hrf
    have htr : truthyStr (getRec (_apply_referral n rf store).2 n).referred_by
        = true := by
      rw [h3]
      simp [truthyStr, hts]
    obtain ⟨S, hS⟩ : ∃ S, (_apply_referral n rf store).2 = S := ⟨_, rfl⟩
    rw [hS] at htr ⊢
    by_cases hga : n ≤ 0 ∨ rf2 ≤ 0
    · simp only [_apply_referral, if_pos hga]
    · by_cases hgb : n = rf2
      · simp only [_apply_referral, if_neg hga, if_pos hgb]
      · simp only [_apply_referral, if_neg hga, if_neg hgb, if_pos htr]
  exact ⟨h1, h2, h3, h4, h5, h6, h7⟩

/-- C5 witness. -/
theorem c5_witness :
    (((-1 : Int) ≤ 0 ∨ (2 : Int) ≤ 0 ∨ (-1 : Int) = 2) ∧
      (0 : Int) < 1 ∧ (0 : Int) < 2 ∧ (1 : Int) ≠ 2 ∧
      truthyStr (getRec ([] : Store) 1).referred_by = false) ∧
    (_apply_referral (-1) 2 [] = (false, []) ∧
     (_apply_referral 1 2 []).1 = true ∧
     (getRec (_apply_referral 1 2 []).2 1).referred_by = some (toString (2 : Int)) ∧
     _get_credits (getRec (_apply_referral 1 2 []).2 1)
       = _get_credits (getRec ([] : Store) 1) + 2 ∧
     _get_credits (getRec (_apply_referral 1 2 []).2 2)
       = _get_credits (getRec ([] : Store) 2) + 5 ∧
     (getRec (_apply_referral 1 2 []).2 2).ref_count.getD 0
       = (getRec ([] : Store) 2).ref_count.getD 0 + 1 ∧
     _apply_referral 1 3 (_apply_referral 1 2 []).2
       = (false, (_apply_referral 1 2 []).2)) :=
  ⟨⟨Or.inl (by norm_num), by norm_num, by norm_num, by norm_num, by decide⟩,
    c5_theorem (-1) 2 1 2 3 [] [] (Or.inl (by norm_num)) (by norm_num)
      (by norm_num) (by norm_num) (by decide)⟩

end CxBot
